import Mathlib

/-! Register model of `pic_universal_stubs.h`.

A shallow embedding of `builder/frameworks/pic_universal_stubs.h` and of the
blink example `examples/pic16f876-blink/src/main.c`.

* The header is a list of lines (`header`), one constructor per kind of line the
  file contains; every `typedef struct` is a definition of the same name.
* `preprocess` runs the conditional directives over a set of predefined names.
* Bit-field members are laid out in the storage unit of their struct from the
  least significant bit upwards, which is how clang allocates bit-fields on
  little-endian targets (the block is only seen when `__clang__` is defined).
-/

set_option maxRecDepth 100000

namespace PicStubs

/-! ## Syntax -/

/-- Expressions that can stand as the argument of a function-like definition. -/
inductive Expr where
  | num (n : Nat)
  | ident (x : String)
  | assign (x : String) (e : Expr)
  | add (a b : Expr)
  deriving DecidableEq, Repr

/-- Statements; `empty` is the compound statement with no items. -/
inductive Stmt where
  | empty
  | expr (e : Expr)
  | seq (s t : Stmt)
  | doWhile (body : Stmt) (cond : Expr)
  deriving DecidableEq, Repr

/-- One member of a bit-field struct: `unsigned name : width;`. -/
structure BitField where
  name : String
  width : Nat
  deriving DecidableEq, Repr

/-- The three forms of `#pragma clang diagnostic` used by the header. -/
inductive DiagPragma where
  | push
  | pop
  | ignored (flag : String)
  deriving DecidableEq, Repr

/-- The kinds of line in the header. -/
inductive Line where
  | ifndef (m : String)
  | ifdef (m : String)
  | endif
  | defineObj (name : String)
  | defineFn (name : String) (params : List String) (body : Stmt)
  | pragmaDiag (p : DiagPragma)
  | typedefInt (base : String) (name : String)
  | typedefStruct (fields : List BitField) (name : String)
  | externVolatile (ty : String) (name : String)
  deriving DecidableEq, Repr

/-! ## The header, line by line -/

/-- Line 20: the members of `wreg_bits_t`, in declaration order. -/
def wreg_bits_t : List BitField :=
  [⟨"W", 8⟩]

/-- Lines 24 to 27: the members of `status_bits_t`, in declaration order. -/
def status_bits_t : List BitField :=
  [⟨"C", 1⟩, ⟨"DC", 1⟩, ⟨"Z", 1⟩, ⟨"nPD", 1⟩,
   ⟨"nTO", 1⟩, ⟨"RP0", 1⟩, ⟨"RP1", 1⟩, ⟨"IRP", 1⟩]

/-- Lines 31 to 34: the members of `intcon_bits_t`, in declaration order. -/
def intcon_bits_t : List BitField :=
  [⟨"RBIF", 1⟩, ⟨"INTF", 1⟩, ⟨"T0IF", 1⟩, ⟨"RBIE", 1⟩,
   ⟨"INTE", 1⟩, ⟨"T0IE", 1⟩, ⟨"PEIE", 1⟩, ⟨"GIE", 1⟩]

/-- Lines 39 to 42: the members of `porta_bits_t`, in declaration order. -/
def porta_bits_t : List BitField :=
  [⟨"RA0", 1⟩, ⟨"RA1", 1⟩, ⟨"RA2", 1⟩, ⟨"RA3", 1⟩,
   ⟨"RA4", 1⟩, ⟨"RA5", 1⟩, ⟨"RA6", 1⟩, ⟨"RA7", 1⟩]

/-- Lines 46 to 49: the members of `portb_bits_t`, in declaration order. -/
def portb_bits_t : List BitField :=
  [⟨"RB0", 1⟩, ⟨"RB1", 1⟩, ⟨"RB2", 1⟩, ⟨"RB3", 1⟩,
   ⟨"RB4", 1⟩, ⟨"RB5", 1⟩, ⟨"RB6", 1⟩, ⟨"RB7", 1⟩]

/-- Lines 53 to 56: the members of `portc_bits_t`, in declaration order. -/
def portc_bits_t : List BitField :=
  [⟨"RC0", 1⟩, ⟨"RC1", 1⟩, ⟨"RC2", 1⟩, ⟨"RC3", 1⟩,
   ⟨"RC4", 1⟩, ⟨"RC5", 1⟩, ⟨"RC6", 1⟩, ⟨"RC7", 1⟩]

/-- Lines 60 to 63: the members of `portd_bits_t`, in declaration order. -/
def portd_bits_t : List BitField :=
  [⟨"RD0", 1⟩, ⟨"RD1", 1⟩, ⟨"RD2", 1⟩, ⟨"RD3", 1⟩,
   ⟨"RD4", 1⟩, ⟨"RD5", 1⟩, ⟨"RD6", 1⟩, ⟨"RD7", 1⟩]

/-- Lines 67 to 70: the members of `porte_bits_t`, in declaration order. -/
def porte_bits_t : List BitField :=
  [⟨"RE0", 1⟩, ⟨"RE1", 1⟩, ⟨"RE2", 1⟩, ⟨"RE3", 1⟩,
   ⟨"RE4", 1⟩, ⟨"RE5", 1⟩, ⟨"RE6", 1⟩, ⟨"RE7", 1⟩]

/-- Lines 75 to 78: the members of `trisa_bits_t`, in declaration order. -/
def trisa_bits_t : List BitField :=
  [⟨"TRISA0", 1⟩, ⟨"TRISA1", 1⟩, ⟨"TRISA2", 1⟩, ⟨"TRISA3", 1⟩,
   ⟨"TRISA4", 1⟩, ⟨"TRISA5", 1⟩, ⟨"TRISA6", 1⟩, ⟨"TRISA7", 1⟩]

/-- Lines 82 to 85: the members of `trisb_bits_t`, in declaration order. -/
def trisb_bits_t : List BitField :=
  [⟨"TRISB0", 1⟩, ⟨"TRISB1", 1⟩, ⟨"TRISB2", 1⟩, ⟨"TRISB3", 1⟩,
   ⟨"TRISB4", 1⟩, ⟨"TRISB5", 1⟩, ⟨"TRISB6", 1⟩, ⟨"TRISB7", 1⟩]

/-- Lines 89 to 92: the members of `trisc_bits_t`, in declaration order. -/
def trisc_bits_t : List BitField :=
  [⟨"TRISC0", 1⟩, ⟨"TRISC1", 1⟩, ⟨"TRISC2", 1⟩, ⟨"TRISC3", 1⟩,
   ⟨"TRISC4", 1⟩, ⟨"TRISC5", 1⟩, ⟨"TRISC6", 1⟩, ⟨"TRISC7", 1⟩]

/-- Lines 96 to 99: the members of `trisd_bits_t`, in declaration order. -/
def trisd_bits_t : List BitField :=
  [⟨"TRISD0", 1⟩, ⟨"TRISD1", 1⟩, ⟨"TRISD2", 1⟩, ⟨"TRISD3", 1⟩,
   ⟨"TRISD4", 1⟩, ⟨"TRISD5", 1⟩, ⟨"TRISD6", 1⟩, ⟨"TRISD7", 1⟩]

/-- Lines 103 to 106: the members of `trise_bits_t`, in declaration order. -/
def trise_bits_t : List BitField :=
  [⟨"TRISE0", 1⟩, ⟨"TRISE1", 1⟩, ⟨"TRISE2", 1⟩, ⟨"TRISE3", 1⟩,
   ⟨"TRISE4", 1⟩, ⟨"TRISE5", 1⟩, ⟨"TRISE6", 1⟩, ⟨"TRISE7", 1⟩]

/-- Lines 111 to 114: the members of `lata_bits_t`, in declaration order. -/
def lata_bits_t : List BitField :=
  [⟨"LATA0", 1⟩, ⟨"LATA1", 1⟩, ⟨"LATA2", 1⟩, ⟨"LATA3", 1⟩,
   ⟨"LATA4", 1⟩, ⟨"LATA5", 1⟩, ⟨"LATA6", 1⟩, ⟨"LATA7", 1⟩]

/-- Lines 118 to 121: the members of `latb_bits_t`, in declaration order. -/
def latb_bits_t : List BitField :=
  [⟨"LATB0", 1⟩, ⟨"LATB1", 1⟩, ⟨"LATB2", 1⟩, ⟨"LATB3", 1⟩,
   ⟨"LATB4", 1⟩, ⟨"LATB5", 1⟩, ⟨"LATB6", 1⟩, ⟨"LATB7", 1⟩]

/-- Lines 125 to 128: the members of `latc_bits_t`, in declaration order. -/
def latc_bits_t : List BitField :=
  [⟨"LATC0", 1⟩, ⟨"LATC1", 1⟩, ⟨"LATC2", 1⟩, ⟨"LATC3", 1⟩,
   ⟨"LATC4", 1⟩, ⟨"LATC5", 1⟩, ⟨"LATC6", 1⟩, ⟨"LATC7", 1⟩]

/-- Lines 144 to 147: the members of `option_reg_bits_t`, in declaration order. -/
def option_reg_bits_t : List BitField :=
  [⟨"PS0", 1⟩, ⟨"PS1", 1⟩, ⟨"PS2", 1⟩, ⟨"PSA", 1⟩,
   ⟨"T0SE", 1⟩, ⟨"T0CS", 1⟩, ⟨"INTEDG", 1⟩, ⟨"nRBPU", 1⟩]

/-- Lines 152 to 155: the members of `pir0_bits_t`, in declaration order. -/
def pir0_bits_t : List BitField :=
  [⟨"PIR0_0", 1⟩, ⟨"PIR0_1", 1⟩, ⟨"PIR0_2", 1⟩, ⟨"PIR0_3", 1⟩,
   ⟨"PIR0_4", 1⟩, ⟨"PIR0_5", 1⟩, ⟨"PIR0_6", 1⟩, ⟨"PIR0_7", 1⟩]

/-- Lines 159 to 162: the members of `pir1_bits_t`, in declaration order. -/
def pir1_bits_t : List BitField :=
  [⟨"PIR1_0", 1⟩, ⟨"PIR1_1", 1⟩, ⟨"PIR1_2", 1⟩, ⟨"PIR1_3", 1⟩,
   ⟨"PIR1_4", 1⟩, ⟨"PIR1_5", 1⟩, ⟨"PIR1_6", 1⟩, ⟨"PIR1_7", 1⟩]

/-- Lines 167 to 170: the members of `pie0_bits_t`, in declaration order. -/
def pie0_bits_t : List BitField :=
  [⟨"PIE0_0", 1⟩, ⟨"PIE0_1", 1⟩, ⟨"PIE0_2", 1⟩, ⟨"PIE0_3", 1⟩,
   ⟨"PIE0_4", 1⟩, ⟨"PIE0_5", 1⟩, ⟨"PIE0_6", 1⟩, ⟨"PIE0_7", 1⟩]

/-- Lines 174 to 177: the members of `pie1_bits_t`, in declaration order. -/
def pie1_bits_t : List BitField :=
  [⟨"PIE1_0", 1⟩, ⟨"PIE1_1", 1⟩, ⟨"PIE1_2", 1⟩, ⟨"PIE1_3", 1⟩,
   ⟨"PIE1_4", 1⟩, ⟨"PIE1_5", 1⟩, ⟨"PIE1_6", 1⟩, ⟨"PIE1_7", 1⟩]

/-- Lines 182 to 185: the members of `ansela_bits_t`, in declaration order. -/
def ansela_bits_t : List BitField :=
  [⟨"ANS0", 1⟩, ⟨"ANS1", 1⟩, ⟨"ANS2", 1⟩, ⟨"ANS3", 1⟩,
   ⟨"ANS4", 1⟩, ⟨"ANS5", 1⟩, ⟨"ANS6", 1⟩, ⟨"ANS7", 1⟩]

/-- Lines 189 to 192: the members of `anselb_bits_t`, in declaration order. -/
def anselb_bits_t : List BitField :=
  [⟨"ANSB0", 1⟩, ⟨"ANSB1", 1⟩, ⟨"ANSB2", 1⟩, ⟨"ANSB3", 1⟩,
   ⟨"ANSB4", 1⟩, ⟨"ANSB5", 1⟩, ⟨"ANSB6", 1⟩, ⟨"ANSB7", 1⟩]

/-- Lines 197 to 200: the members of `wpua_bits_t`, in declaration order. -/
def wpua_bits_t : List BitField :=
  [⟨"WPUA0", 1⟩, ⟨"WPUA1", 1⟩, ⟨"WPUA2", 1⟩, ⟨"WPUA3", 1⟩,
   ⟨"WPUA4", 1⟩, ⟨"WPUA5", 1⟩, ⟨"WPUA6", 1⟩, ⟨"WPUA7", 1⟩]

/-- Lines 205 to 208: the members of `adcon0_bits_t`, in declaration order. -/
def adcon0_bits_t : List BitField :=
  [⟨"ADCON0_0", 1⟩, ⟨"ADCON0_1", 1⟩, ⟨"ADCON0_2", 1⟩, ⟨"ADCON0_3", 1⟩,
   ⟨"ADCON0_4", 1⟩, ⟨"ADCON0_5", 1⟩, ⟨"ADCON0_6", 1⟩, ⟨"ADCON0_7", 1⟩]

/-- Line 216: `#define __delay_ms(x) do { } while(0)`. -/
def __delay_ms : Line := Line.defineFn "__delay_ms" ["x"] (Stmt.doWhile Stmt.empty (Expr.num 0))

/-- Line 217: `#define __delay_us(x) do { } while(0)`. -/
def __delay_us : Line := Line.defineFn "__delay_us" ["x"] (Stmt.doWhile Stmt.empty (Expr.num 0))

/-- From line 7: universal transpilation stubs for ALL PICs in Microchip DFP. -/
def diagnosticsOn : List Line :=
  [Line.pragmaDiag DiagPragma.push,
   Line.pragmaDiag (DiagPragma.ignored "-Wunknown-pragmas"),
   Line.pragmaDiag (DiagPragma.ignored "-Wunused-variable"),
   Line.pragmaDiag (DiagPragma.ignored "-Wimplicit-function-declaration"),
   Line.pragmaDiag (DiagPragma.ignored "-Wignored-attributes")]

/-- From line 14: basic types. -/
def basicTypes : List Line :=
  [Line.typedefInt "unsigned char" "uint8_t",
   Line.typedefInt "unsigned int" "uint16_t",
   Line.typedefInt "unsigned long" "uint32_t"]

/-- From line 19: core CPU registers (common to all PICs). -/
def coreRegisters : List Line :=
  [Line.typedefStruct wreg_bits_t "wreg_bits_t",
   Line.externVolatile "wreg_bits_t" "WREGbits",
   Line.externVolatile "uint8_t" "WREG",
   Line.typedefStruct status_bits_t "status_bits_t",
   Line.externVolatile "status_bits_t" "STATUSbits",
   Line.externVolatile "uint8_t" "STATUS",
   Line.typedefStruct intcon_bits_t "intcon_bits_t",
   Line.externVolatile "intcon_bits_t" "INTCONbits",
   Line.externVolatile "uint8_t" "INTCON"]

/-- From line 38: PORT registers (A-E common on many PICs). -/
def portRegisters : List Line :=
  [Line.typedefStruct porta_bits_t "porta_bits_t",
   Line.externVolatile "porta_bits_t" "PORTAbits",
   Line.externVolatile "uint8_t" "PORTA",
   Line.typedefStruct portb_bits_t "portb_bits_t",
   Line.externVolatile "portb_bits_t" "PORTBbits",
   Line.externVolatile "uint8_t" "PORTB",
   Line.typedefStruct portc_bits_t "portc_bits_t",
   Line.externVolatile "portc_bits_t" "PORTCbits",
   Line.externVolatile "uint8_t" "PORTC",
   Line.typedefStruct portd_bits_t "portd_bits_t",
   Line.externVolatile "portd_bits_t" "PORTDbits",
   Line.externVolatile "uint8_t" "PORTD",
   Line.typedefStruct porte_bits_t "porte_bits_t",
   Line.externVolatile "porte_bits_t" "PORTEbits",
   Line.externVolatile "uint8_t" "PORTE"]

/-- From line 74: TRIS registers (direction control). -/
def trisRegisters : List Line :=
  [Line.typedefStruct trisa_bits_t "trisa_bits_t",
   Line.externVolatile "trisa_bits_t" "TRISAbits",
   Line.externVolatile "uint8_t" "TRISA",
   Line.typedefStruct trisb_bits_t "trisb_bits_t",
   Line.externVolatile "trisb_bits_t" "TRISBbits",
   Line.externVolatile "uint8_t" "TRISB",
   Line.typedefStruct trisc_bits_t "trisc_bits_t",
   Line.externVolatile "trisc_bits_t" "TRISCbits",
   Line.externVolatile "uint8_t" "TRISC",
   Line.typedefStruct trisd_bits_t "trisd_bits_t",
   Line.externVolatile "trisd_bits_t" "TRISDbits",
   Line.externVolatile "uint8_t" "TRISD",
   Line.typedefStruct trise_bits_t "trise_bits_t",
   Line.externVolatile "trise_bits_t" "TRISEbits",
   Line.externVolatile "uint8_t" "TRISE"]

/-- From line 110: LAT registers (output latch). -/
def latRegisters : List Line :=
  [Line.typedefStruct lata_bits_t "lata_bits_t",
   Line.externVolatile "lata_bits_t" "LATAbits",
   Line.externVolatile "uint8_t" "LATA",
   Line.typedefStruct latb_bits_t "latb_bits_t",
   Line.externVolatile "latb_bits_t" "LATBbits",
   Line.externVolatile "uint8_t" "LATB",
   Line.typedefStruct latc_bits_t "latc_bits_t",
   Line.externVolatile "latc_bits_t" "LATCbits",
   Line.externVolatile "uint8_t" "LATC"]

/-- From line 132: timer registers. -/
def timerRegisters : List Line :=
  [Line.externVolatile "uint8_t" "TMR0",
   Line.externVolatile "uint8_t" "TMR1",
   Line.externVolatile "uint8_t" "TMR1L",
   Line.externVolatile "uint8_t" "TMR1H",
   Line.externVolatile "uint8_t" "TMR2",
   Line.externVolatile "uint8_t" "TMR3",
   Line.externVolatile "uint8_t" "TMR4",
   Line.externVolatile "uint8_t" "TMR5",
   Line.externVolatile "uint8_t" "TMR6"]

/-- From line 143: option register. -/
def optionRegister : List Line :=
  [Line.typedefStruct option_reg_bits_t "option_reg_bits_t",
   Line.externVolatile "option_reg_bits_t" "OPTION_REGbits",
   Line.externVolatile "uint8_t" "OPTION_REG"]

/-- From line 151: PIR registers (peripheral interrupt flags). -/
def pirRegisters : List Line :=
  [Line.typedefStruct pir0_bits_t "pir0_bits_t",
   Line.externVolatile "pir0_bits_t" "PIR0bits",
   Line.externVolatile "uint8_t" "PIR0",
   Line.typedefStruct pir1_bits_t "pir1_bits_t",
   Line.externVolatile "pir1_bits_t" "PIR1bits",
   Line.externVolatile "uint8_t" "PIR1"]

/-- From line 166: PIE registers (peripheral interrupt enable). -/
def pieRegisters : List Line :=
  [Line.typedefStruct pie0_bits_t "pie0_bits_t",
   Line.externVolatile "pie0_bits_t" "PIE0bits",
   Line.externVolatile "uint8_t" "PIE0",
   Line.typedefStruct pie1_bits_t "pie1_bits_t",
   Line.externVolatile "pie1_bits_t" "PIE1bits",
   Line.externVolatile "uint8_t" "PIE1"]

/-- From line 181: ANSEL registers (analog select). -/
def anselRegisters : List Line :=
  [Line.typedefStruct ansela_bits_t "ansela_bits_t",
   Line.externVolatile "ansela_bits_t" "ANSELAbits",
   Line.externVolatile "uint8_t" "ANSELA",
   Line.typedefStruct anselb_bits_t "anselb_bits_t",
   Line.externVolatile "anselb_bits_t" "ANSELBbits",
   Line.externVolatile "uint8_t" "ANSELB"]

/-- From line 196: WPU registers (weak pull-up). -/
def wpuRegisters : List Line :=
  [Line.typedefStruct wpua_bits_t "wpua_bits_t",
   Line.externVolatile "wpua_bits_t" "WPUAbits",
   Line.externVolatile "uint8_t" "WPUA"]

/-- From line 204: ADC registers. -/
def adcRegisters : List Line :=
  [Line.typedefStruct adcon0_bits_t "adcon0_bits_t",
   Line.externVolatile "adcon0_bits_t" "ADCON0bits",
   Line.externVolatile "uint8_t" "ADCON0",
   Line.externVolatile "uint8_t" "ADRESH",
   Line.externVolatile "uint8_t" "ADRESL"]

/-- From line 215: delay functions for transpilation. -/
def delayDefines : List Line :=
  [__delay_ms,
   __delay_us]

/-- From line 219: the closing pragma. -/
def diagnosticsOff : List Line :=
  [Line.pragmaDiag DiagPragma.pop]

/-- Lines 8 to 219: what stands between `#ifdef __clang__` and its `#endif`. -/
def clangBlock : List Line :=
  diagnosticsOn ++ basicTypes ++ coreRegisters ++ portRegisters
    ++ trisRegisters ++ latRegisters ++ timerRegisters ++ optionRegister 
    ++ pirRegisters ++ pieRegisters ++ anselRegisters ++ wpuRegisters ++ adcRegisters ++ delayDefines ++ diagnosticsOff

/-- Lines 3 to 222 of `pic_universal_stubs.h`. -/
def header : List Line :=
  [ Line.ifndef "PIC_UNIVERSAL_STUBS_H", Line.defineObj "PIC_UNIVERSAL_STUBS_H",
   Line.ifdef "__clang__"] ++ clangBlock ++ [Line.endif, Line.endif]

/-- Lines 31 to 46 of `main.c`: a symbol of the register interface used by `main`. -/
inductive Use where
  | memberAssign (obj member : String) (value : Nat)
  | call (name : String) (args : List Expr)
  deriving DecidableEq, Repr

/-- Line 33 of `main.c`, before the loop: `TRISBbits.TRISB0 = 0;`. -/
def mainSetup : List Use :=
  [Use.memberAssign "TRISBbits" "TRISB0" 0]

/-- Lines 36 to 44 of `main.c`, the body of `while(1)`. -/
def mainLoop : List Use :=
  [Use.memberAssign "PORTBbits" "RB0" 1,
   Use.call "__delay_ms" [Expr.num 500],
   Use.memberAssign "PORTBbits" "RB0" 0,
   Use.call "__delay_ms" [Expr.num 500]]

/-- Everything `main` refers to, in source order. -/
def main : List Use := mainSetup ++ mainLoop

/-! ## Conditional inclusion -/

/-- State of the preprocessor while it reads the header: the names defined so
far, the truth values of the enclosing conditional groups (innermost first) and
the lines passed on to the compiler. -/
structure PP where
  defined : List String
  conds : List Bool
  out : List Line
  deriving DecidableEq, Repr

/-- A line is processed only when every enclosing conditional group is taken. -/
def PP.live (s : PP) : Bool := s.conds.all id

/-- One line of the header: conditional inclusion. This stage decides which
lines are passed on and records the names defined; replacement of defined names
inside the text of a line is the work of `translate`. -/
def ppStep (s : PP) : Line → PP
  | Line.ifndef m => { s with conds := (!s.defined.contains m) :: s.conds }
  | Line.ifdef m => { s with conds := s.defined.contains m :: s.conds }
  | Line.endif => { s with conds := s.conds.tail }
  | Line.defineObj n =>
    if s.live then { s with defined := n :: s.defined, out := s.out ++ [Line.defineObj n] }
    else s
  | Line.defineFn n ps b =>
    if s.live then { s with defined := n :: s.defined, out := s.out ++ [Line.defineFn n ps b] }
    else s
  | l => if s.live then { s with out := s.out ++ [l] } else s

/-- Lines that open or close a conditional group. -/
def Line.isConditional : Line → Bool
  | Line.ifndef _ => true
  | Line.ifdef _ => true
  | Line.endif => true
  | _ => false

/-- Run the directives of `ls`, starting from the predefined names `cfg`. -/
def preprocess (cfg : List String) (ls : List Line) : PP :=
  ls.foldl ppStep { defined := cfg, conds := [], out := [] }

/-- The lines an inclusion of the header passes on when the names `cfg` are
defined, before any replacement in their text. -/
def emitted (cfg : List String) : List Line := (preprocess cfg header).out

/-- Whether a line is a diagnostic pragma. -/
def Line.isPragma : Line → Bool
  | Line.pragmaDiag _ => true
  | _ => false

/-- The declarations and definitions among the emitted lines (pragmas apart). -/
def contributed (cfg : List String) : List Line :=
  (emitted cfg).filter (fun l => !l.isPragma)

/-- The register model: the header as clang sees it on a first inclusion. -/
def model : List Line := emitted ["__clang__"]

/-- The register model proper: the declarations and definitions of the block,
section by section, without the diagnostic pragmas around them. -/
def registerModel : List Line :=
  basicTypes ++ coreRegisters ++ portRegisters ++ trisRegisters ++ latRegisters
    ++ timerRegisters ++ optionRegister ++ pirRegisters ++ pieRegisters ++ anselRegisters
    ++ wpuRegisters ++ adcRegisters ++ delayDefines

/-! ## Replacement of defined names in the text -/

/-- An object-like definition of the configuration, as `-D name=tokens` gives
it (`-D name` has the body `1`). -/
structure Definition where
  name : String
  body : List String
  deriving DecidableEq, Repr

/-- The names a configuration defines. -/
def definedNames (cfg : List Definition) : List String := cfg.map (fun d => d.name)

/-- Split at blanks; `w` holds the current word, reversed. -/
def wordsAux : List Char → List Char → List String
  | [], [] => []
  | [], w => [String.mk w.reverse]
  | c :: cs, w =>
    if c = Char.ofNat 32 then
      (if w = [] then wordsAux cs [] else String.mk w.reverse :: wordsAux cs [])
    else wordsAux cs (c :: w)

/-- The words of a base type such as `unsigned char`. -/
def words (s : String) : List String := wordsAux s.toList []

/-- Tokens of an expression. -/
def Expr.tokens : Expr → List String
  | Expr.num n => [toString n]
  | Expr.ident x => [x]
  | Expr.assign x e => [x, "="] ++ e.tokens
  | Expr.add a b => a.tokens ++ ["+"] ++ b.tokens

/-- Tokens of a statement. -/
def Stmt.tokens : Stmt → List String
  | Stmt.empty => ["\x7b", "\x7d"]
  | Stmt.expr e => e.tokens ++ [";"]
  | Stmt.seq s t => s.tokens ++ t.tokens
  | Stmt.doWhile s c => ["do"] ++ s.tokens ++ ["while", "("] ++ c.tokens ++ [")"]

/-- Tokens of a diagnostic pragma, after `#pragma clang diagnostic`. -/
def DiagPragma.tokens : DiagPragma → List String
  | DiagPragma.push => ["push"]
  | DiagPragma.pop => ["pop"]
  | DiagPragma.ignored flag => ["ignored", flag]

/-- The text of a line of the header, token by token. -/
def Line.tokens : Line → List String
  | Line.ifndef m => ["#", "ifndef", m]
  | Line.ifdef m => ["#", "ifdef", m]
  | Line.endif => ["#", "endif"]
  | Line.defineObj n => ["#", "define", n]
  | Line.defineFn n ps b => ["#", "define", n, "("] ++ ps.intersperse "," ++ [")"] ++ b.tokens
  | Line.pragmaDiag p => ["#", "pragma", "clang", "diagnostic"] ++ p.tokens
  | Line.typedefInt b n => ["typedef"] ++ words b ++ [n, ";"]
  | Line.typedefStruct fs n =>
    ["typedef", "struct", "\x7b"]
      ++ fs.flatMap (fun f => ["unsigned", f.name, ":", toString f.width, ";"])
      ++ ["\x7d", n, ";"]
  | Line.externVolatile ty n => ["extern", "volatile", ty, n, ";"]

/-- Lines that are directives: their text is not subject to replacement when
the line is processed. -/
def Line.isDirective : Line → Bool
  | Line.typedefInt _ _ => false
  | Line.typedefStruct _ _ => false
  | Line.externVolatile _ _ => false
  | _ => true

/-- Replacement of one token: a token that names a definition is replaced by
the body of the definition, whose tokens are replaced in turn, except that a
name is not replaced again inside its own replacement (`hide`). The bound is
the nesting depth; the number of definitions plus one is enough since every
nesting adds a name to `hide`. -/
def expandTok (defs : List Definition) : Nat → List String → String → List String
  | 0, _, t => [t]
  | k + 1, hide, t =>
    if hide.contains t then [t]
    else
      match defs.find? (fun d => d.name == t) with
      | none => [t]
      | some d => d.body.flatMap (expandTok defs k (t :: hide))

/-- The text of a line as the compiler receives it under the definitions
`defs`: directives as they stand, declarations with defined names replaced. -/
def translate (defs : List Definition) (l : Line) : List String :=
  if l.isDirective then l.tokens
  else l.tokens.flatMap (expandTok defs (defs.length + 1) [])

/-- The declarations and definitions the header contributes under the
configuration `cfg`, as text. The block is read with the guard defined (line 4,
empty body) besides the definitions of the configuration. -/
def translated (cfg : List Definition) : List (List String) :=
  (contributed (definedNames cfg)).map
    (translate ({ name := "PIC_UNIVERSAL_STUBS_H", body := [] } :: cfg))

/-- Every token of the text of the register model. -/
def modelTokens : List String := registerModel.flatMap Line.tokens

/-! ## Declarations in scope -/

/-- Members of the struct type `ty`, when `out` has such a `typedef struct`. -/
def structFields (out : List Line) (ty : String) : Option (List BitField) :=
  out.findSome? fun
    | Line.typedefStruct fs n => if n = ty then some fs else none
    | _ => none

/-- Base type of the integer typedef `ty`. -/
def intBase (out : List Line) (ty : String) : Option String :=
  out.findSome? fun
    | Line.typedefInt b n => if n = ty then some b else none
    | _ => none

/-- Width in bits of a base type. Only `unsigned char` is needed (8 bits); the
widths of `unsigned int` and `unsigned long` depend on the target. -/
def baseBits : String → Option Nat
  | "unsigned char" => some 8
  | _ => none

/-- A bit-field view: an `extern volatile` object of struct type. -/
structure View where
  name : String
  fields : List BitField
  deriving DecidableEq, Repr

/-- A flat register: an `extern volatile` object of integer type. -/
structure Flat where
  name : String
  bits : Nat
  deriving DecidableEq, Repr

/-- The bit-field views declared by `out`, in order. -/
def bitfieldViews (out : List Line) : List View :=
  out.filterMap fun
    | Line.externVolatile ty n => (structFields out ty).map (View.mk n)
    | _ => none

/-- The flat registers declared by `out`, in order. -/
def flatRegisters (out : List Line) : List Flat :=
  out.filterMap fun
    | Line.externVolatile ty n => ((intBase out ty).bind baseBits).map (Flat.mk n)
    | _ => none

/-- Function-like definitions of `out`: name and parameters. -/
def functionLike (out : List Line) : List (String × List String) :=
  out.filterMap fun
    | Line.defineFn n ps _ => some (n, ps)
    | _ => none

/-- Every identifier a line introduces (type, object, member or definition). -/
def Line.names : Line → List String
  | Line.defineObj n => [n]
  | Line.defineFn n _ _ => [n]
  | Line.typedefInt _ n => [n]
  | Line.typedefStruct fs n => n :: fs.map (fun f => f.name)
  | Line.externVolatile _ n => [n]
  | _ => []

/-- Every identifier `out` introduces. -/
def suppliedNames (out : List Line) : List String := out.flatMap Line.names

/-- Name of the view of register `r`: the register name followed by `bits`. -/
def viewName (r : String) : String := r ++ "bits"

/-- The flat registers the header declares without a bit-field view: the timer
registers (lines 133 to 141) and the ADC result registers (lines 212, 213). -/
def flatOnly : List String :=
  ["TMR0", "TMR1", "TMR1L", "TMR1H", "TMR2", "TMR3", "TMR4", "TMR5", "TMR6", "ADRESH", "ADRESL"]

/-- Naming convention of the PORT/TRIS/LAT triads as the specification words it:
the bit-group of `PORT<letter>` is `R<letter>`, that of `TRIS<letter>` and of
`LAT<letter>` is the register name itself; other registers have none. -/
def bitGroup (r : String) : Option String :=
  if r.toList.take 4 = ['P', 'O', 'R', 'T'] then some (String.mk ('R' :: r.toList.drop 4))
  else if r.toList.take 4 = ['T', 'R', 'I', 'S'] then some r
  else if r.toList.take 3 = ['L', 'A', 'T'] then some r
  else none

/-- Member names the convention gives a bit-group: the group followed by the
decimal digit `n`, for `n` from 0 to 7. -/
def conventionNames (p : String) : List String :=
  (List.range 8).map (fun n => p ++ toString n)

/-! ## Bit-field layout and access -/

/-- Sum of the declared widths. -/
def totalWidth (fs : List BitField) : Nat := (fs.map (fun f => f.width)).sum

/-- Bit offset of the member at position `i`: the widths before it. -/
def offsetOf (fs : List BitField) (i : Nat) : Nat := totalWidth (fs.take i)

/-- Declared width of the member at position `i` (0 past the end). -/
def widthOf (fs : List BitField) (i : Nat) : Nat :=
  match fs.get? i with
  | some f => f.width
  | none => 0

/-- Position of the member called `m`. -/
def memberIndex (fs : List BitField) (m : String) : Option Nat :=
  let i := fs.findIdx (fun f => f.name == m)
  if i < fs.length then some i else none

/-- Read member `i` out of the storage unit `s`. -/
def readMember (fs : List BitField) (s i : Nat) : Nat :=
  (s >>> offsetOf fs i) % 2 ^ widthOf fs i

/-- Assign `x` to member `i` of the storage unit `s`: `x` is reduced modulo
`2 ^ width` and replaces the bits of the member, the other bits are kept. -/
def writeMember (fs : List BitField) (s i x : Nat) : Nat :=
  ((s >>> (offsetOf fs i + widthOf fs i)) <<< (offsetOf fs i + widthOf fs i))
    ||| ((x % 2 ^ widthOf fs i) <<< offsetOf fs i)
    ||| (s % 2 ^ offsetOf fs i)

/-- Assign to every member, in declaration order, its own bits of `v`. -/
def writeAll (fs : List BitField) (s v : Nat) : Nat :=
  (List.range fs.length).foldl (fun t i => writeMember fs t i (readMember fs v i)) s

/-- Contents of the declared objects, one storage unit per object name. Two
`extern` declarations with different names are two objects: the header gives
neither an address nor a union that would lay one over the other. -/
abbrev Store := String → Nat

/-- Replace the contents of one object. -/
def Store.set (σ : Store) (obj : String) (x : Nat) : Store :=
  fun o => if o = obj then x else σ o

/-- Assignment `R = v` to a flat `uint8_t` register. -/
def storeFlat (σ : Store) (r : String) (v : Nat) : Store := σ.set r (v % 2 ^ 8)

/-- Value of the flat register `r`. -/
def loadFlat (σ : Store) (r : String) : Nat := σ r

/-- Assignment `Rbits.member = x`. -/
def storeMember (σ : Store) (v : View) (i x : Nat) : Store :=
  σ.set v.name (writeMember v.fields (σ v.name) i x)

/-- Value of `Rbits.member`. -/
def loadMember (σ : Store) (v : View) (i : Nat) : Nat :=
  readMember v.fields (σ v.name) i

/-- Assignment to every member of the view, one by one in declaration order,
of its own bits of `x`. -/
def storeAll (σ : Store) (v : View) (x : Nat) : Store :=
  (List.range v.fields.length).foldl (fun τ i => storeMember τ v i (readMember v.fields x i)) σ

/-! ## Diagnostic state -/

/-- Severity a diagnostic category is mapped to. -/
inductive Severity where
  | ignored
  | remark
  | warning
  | error
  | fatal
  deriving DecidableEq, Repr

/-- Diagnostic state of the compiler: the current mapping of categories and
the mappings saved by `push`. -/
structure DiagState where
  current : String → Severity
  saved : List (String → Severity)

/-- Effect of one diagnostic pragma. A `pop` without a saved mapping does nothing. -/
def diagStep (d : DiagState) : DiagPragma → DiagState
  | DiagPragma.push => { d with saved := d.current :: d.saved }
  | DiagPragma.pop =>
    match d.saved with
    | [] => d
    | m :: rest => { current := m, saved := rest }
  | DiagPragma.ignored f =>
    { d with current := fun g => if g = f then Severity.ignored else d.current g }

/-- The diagnostic pragmas among the lines `out`, in order. -/
def diagPragmas (out : List Line) : List DiagPragma :=
  out.filterMap fun
    | Line.pragmaDiag p => some p
    | _ => none

/-- Run a sequence of diagnostic pragmas. -/
def runDiag (d : DiagState) (ps : List DiagPragma) : DiagState := ps.foldl diagStep d

/-- The four categories the header switches off. -/
def suppressed : List String :=
  ["-Wunknown-pragmas", "-Wunused-variable", "-Wimplicit-function-declaration",
   "-Wignored-attributes"]

/-! ## Expansion and execution of the delay definitions -/

/-- Replace parameters by arguments in an expression. -/
def Expr.subst (b : List (String × Expr)) : Expr → Expr
  | Expr.num n => Expr.num n
  | Expr.ident x => (b.lookup x).getD (Expr.ident x)
  | Expr.assign x e => Expr.assign x (e.subst b)
  | Expr.add l r => Expr.add (l.subst b) (r.subst b)

/-- Replace parameters by arguments in a statement. -/
def Stmt.subst (b : List (String × Expr)) : Stmt → Stmt
  | Stmt.empty => Stmt.empty
  | Stmt.expr e => Stmt.expr (e.subst b)
  | Stmt.seq s t => Stmt.seq (s.subst b) (t.subst b)
  | Stmt.doWhile s c => Stmt.doWhile (s.subst b) (c.subst b)

/-- Whether an expression mentions the identifier `x`. -/
def Expr.mentions (x : String) : Expr → Bool
  | Expr.num _ => false
  | Expr.ident y => y == x
  | Expr.assign y e => y == x || e.mentions x
  | Expr.add l r => l.mentions x || r.mentions x

/-- Whether a statement mentions the identifier `x`. -/
def Stmt.mentions (x : String) : Stmt → Bool
  | Stmt.empty => false
  | Stmt.expr e => e.mentions x
  | Stmt.seq s t => s.mentions x || t.mentions x
  | Stmt.doWhile s c => s.mentions x || c.mentions x

/-- Body and parameters of the function-like definition `name`. -/
def lookupFn (out : List Line) (name : String) : Option (List String × Stmt) :=
  out.findSome? fun
    | Line.defineFn n ps b => if n = name then some (ps, b) else none
    | _ => none

/-- Expansion of the invocation `name(args)`; none when `name` is not a
function-like definition or the number of arguments is wrong. -/
def expandCall (out : List Line) (name : String) (args : List Expr) : Option Stmt :=
  match lookupFn out name with
  | none => none
  | some (ps, b) => if ps.length = args.length then some (b.subst (ps.zip args)) else none

/-- Value and effect of an expression. Identifiers name flat `uint8_t`
registers: an assignment stores the value modulo `2 ^ 8`, and that stored value
is the value of the assignment. -/
def Expr.eval : Expr → Store → Nat × Store
  | Expr.num n, σ => (n, σ)
  | Expr.ident x, σ => (σ x, σ)
  | Expr.assign x e, σ => ((e.eval σ).1 % 2 ^ 8, storeFlat (e.eval σ).2 x (e.eval σ).1)
  | Expr.add l r, σ => ((l.eval σ).1 + (r.eval (l.eval σ).2).1, (r.eval (l.eval σ).2).2)

/-- Execution of a statement with a bound on the number of nested steps; none
when the bound is reached. -/
def Stmt.exec : Nat → Stmt → Store → Option Store
  | 0, _, _ => none
  | _ + 1, Stmt.empty, σ => some σ
  | _ + 1, Stmt.expr e, σ => some (e.eval σ).2
  | n + 1, Stmt.seq s t, σ =>
    match Stmt.exec n s σ with
    | none => none
    | some τ => Stmt.exec n t τ
  | n + 1, Stmt.doWhile s c, σ =>
    match Stmt.exec n s σ with
    | none => none
    | some τ =>
      if (c.eval τ).1 = 0 then some (c.eval τ).2 else Stmt.exec n (Stmt.doWhile s c) (c.eval τ).2

/-- Whether a use in `main` resolves against the declarations `out`: a member
assignment needs the object, the member, and a value that fits the member; an
invocation needs a function-like definition with as many parameters. -/
def resolves (out : List Line) : Use → Bool
  | Use.memberAssign obj m x =>
    match (bitfieldViews out).find? (fun v => v.name == obj) with
    | none => false
    | some v =>
      match memberIndex v.fields m with
      | none => false
      | some i => x % 2 ^ widthOf v.fields i == x
  | Use.call name args => (expandCall out name args).isSome

/-- The identifiers a use refers to. -/
def Use.names : Use → List String
  | Use.memberAssign obj m _ => [obj, m]
  | Use.call name _ => [name]


/-! # Theorems -/

/-! ## Conditional inclusion: what the header emits -/

theorem ppStep_dead (s : PP) (l : Line) (hl : l.isConditional = false) (h : s.live = false) :
    ppStep s l = s := by
  cases l <;> simp_all [ppStep, Line.isConditional]

theorem ppStep_live_out (s : PP) (l : Line) (hl : l.isConditional = false)
    (h : s.live = true) :
    (ppStep s l).out = s.out ++ [l] ∧ (ppStep s l).conds = s.conds := by
  cases l <;> simp_all [ppStep, Line.isConditional]

theorem foldl_ppStep_dead (ls : List Line) (s : PP)
    (hc : ∀ l ∈ ls, l.isConditional = false) (h : s.live = false) :
    ls.foldl ppStep s = s := by
  induction ls generalizing s with
  | nil => rfl
  | cons l ls ih =>
    rw [List.foldl_cons, ppStep_dead s l (hc l (List.mem_cons_self _ _)) h]
    exact ih s (fun m hm => hc m (List.mem_cons_of_mem _ hm)) h

theorem foldl_ppStep_live (ls : List Line) (s : PP)
    (hc : ∀ l ∈ ls, l.isConditional = false) (h : s.live = true) :
    (ls.foldl ppStep s).out = s.out ++ ls ∧ (ls.foldl ppStep s).conds = s.conds := by
  induction ls generalizing s with
  | nil => simp
  | cons l ls ih =>
    have h1 := ppStep_live_out s l (hc l (List.mem_cons_self _ _)) h
    have h2 : (ppStep s l).live = true := by
      unfold PP.live at h ⊢
      rw [h1.2]; exact h
    have h3 := ih (ppStep s l) (fun m hm => hc m (List.mem_cons_of_mem _ hm)) h2
    rw [List.foldl_cons, h3.1, h3.2, h1.1, h1.2]
    simp

theorem clangBlock_plain : ∀ l ∈ clangBlock, l.isConditional = false := by
  simp [clangBlock, diagnosticsOn, basicTypes, coreRegisters, portRegisters, trisRegisters,
    latRegisters, timerRegisters, optionRegister, pirRegisters, pieRegisters, anselRegisters,
    wpuRegisters, adcRegisters, delayDefines, diagnosticsOff, Line.isConditional, __delay_ms,
    __delay_us]

theorem emitted_eq (cfg : List String) :
    emitted cfg =
      if "PIC_UNIVERSAL_STUBS_H" ∈ cfg then []
      else Line.defineObj "PIC_UNIVERSAL_STUBS_H" ::
        (if "__clang__" ∈ cfg then clangBlock else []) := by
  unfold emitted preprocess header
  rw [List.foldl_append, List.foldl_append]
  by_cases hg : "PIC_UNIVERSAL_STUBS_H" ∈ cfg
  · rw [foldl_ppStep_dead clangBlock _ clangBlock_plain (by simp [ppStep, PP.live, hg])]
    simp [ppStep, PP.live, hg]
  · by_cases hc : "__clang__" ∈ cfg
    · have hs : List.foldl ppStep { defined := cfg, conds := [], out := [] }
          [ Line.ifndef "PIC_UNIVERSAL_STUBS_H", Line.defineObj "PIC_UNIVERSAL_STUBS_H",
            Line.ifdef "__clang__"] =
          { defined := "PIC_UNIVERSAL_STUBS_H" :: cfg, conds := [true, true],
            out := [Line.defineObj "PIC_UNIVERSAL_STUBS_H"] } := by
        simp [ppStep, PP.live, hg, hc]
      have h := foldl_ppStep_live clangBlock
        { defined := "PIC_UNIVERSAL_STUBS_H" :: cfg, conds := [true, true],
          out := [Line.defineObj "PIC_UNIVERSAL_STUBS_H"] } clangBlock_plain (by simp [PP.live])
      rw [hs]
      simp [ppStep, h.1, hg, hc]
    · rw [foldl_ppStep_dead clangBlock _ clangBlock_plain (by simp [ppStep, PP.live, hg, hc])]
      simp [ppStep, PP.live, hg, hc]

theorem model_eq : model = Line.defineObj "PIC_UNIVERSAL_STUBS_H" :: clangBlock := by
  unfold model
  rw [emitted_eq]
  simp



/-! ## Bit-field access, bit by bit -/

theorem totalWidth_cons (f : BitField) (fs : List BitField) :
    totalWidth (f :: fs) = f.width + totalWidth fs := by
  simp [totalWidth]

theorem offsetOf_succ (fs : List BitField) (i : Nat) :
    offsetOf fs (i + 1) = offsetOf fs i + widthOf fs i := by
  induction fs generalizing i with
  | nil => simp [offsetOf, widthOf, totalWidth]
  | cons f fs ih =>
    cases i with
    | zero => simp [offsetOf, widthOf, totalWidth]
    | succ k =>
      have h := ih k
      simp only [offsetOf, widthOf, List.take_succ_cons, totalWidth_cons, List.get?_cons_succ] at h ⊢
      omega

theorem offsetOf_mono (fs : List BitField) (i j : Nat) (h : i < j) :
    offsetOf fs i + widthOf fs i ≤ offsetOf fs j := by
  induction j with
  | zero => omega
  | succ k ih =>
    rw [offsetOf_succ fs k]
    by_cases hk : i = k
    · subst hk; omega
    · have := ih (by omega); omega

theorem offsetOf_length (fs : List BitField) : offsetOf fs fs.length = totalWidth fs := by
  simp [offsetOf]

theorem testBit_readMember (fs : List BitField) (s i j : Nat) :
    (readMember fs s i).testBit j =
      (decide (j < widthOf fs i) && s.testBit (offsetOf fs i + j)) := by
  simp [readMember, Nat.testBit_mod_two_pow, Nat.testBit_shiftRight]

theorem testBit_writeMember (fs : List BitField) (s i x j : Nat) :
    (writeMember fs s i x).testBit j =
      if offsetOf fs i ≤ j ∧ j < offsetOf fs i + widthOf fs i then x.testBit (j - offsetOf fs i)
      else s.testBit j := by
  simp only [writeMember, Nat.testBit_or, Nat.testBit_shiftLeft, Nat.testBit_shiftRight,
    Nat.testBit_mod_two_pow]
  by_cases h1 : offsetOf fs i ≤ j
  · by_cases h2 : j < offsetOf fs i + widthOf fs i
    · have h3 : j - offsetOf fs i < widthOf fs i := by omega
      have h4 : ¬ j ≥ offsetOf fs i + widthOf fs i := by omega
      have h5 : ¬ j < offsetOf fs i := by omega
      simp [h1, h2, h3, h4, h5]
    · have h3 : ¬ j - offsetOf fs i < widthOf fs i := by omega
      have h4 : j ≥ offsetOf fs i + widthOf fs i := by omega
      have h5 : ¬ j < offsetOf fs i := by omega
      have h6 : offsetOf fs i + widthOf fs i + (j - (offsetOf fs i + widthOf fs i)) = j := by
        omega
      simp [h1, h2, h3, h4, h5, h6]
  · have h4 : ¬ j ≥ offsetOf fs i + widthOf fs i := by omega
    have h5 : j < offsetOf fs i := by omega
    simp [h1, h4, h5]

theorem readMember_writeMember_same (fs : List BitField) (s i x : Nat) :
    readMember fs (writeMember fs s i x) i = x % 2 ^ widthOf fs i := by
  apply Nat.eq_of_testBit_eq
  intro j
  rw [testBit_readMember, testBit_writeMember, Nat.testBit_mod_two_pow]
  by_cases h : j < widthOf fs i
  · have h1 : offsetOf fs i + j < offsetOf fs i + widthOf fs i := by omega
    simp [h, h1]
  · simp [h]

theorem readMember_writeMember_other (fs : List BitField) (s i j x : Nat) (h : i ≠ j) :
    readMember fs (writeMember fs s i x) j = readMember fs s j := by
  apply Nat.eq_of_testBit_eq
  intro k
  rw [testBit_readMember, testBit_readMember, testBit_writeMember]
  by_cases hk : k < widthOf fs j
  · have hd : ¬ (offsetOf fs i ≤ offsetOf fs j + k ∧
        offsetOf fs j + k < offsetOf fs i + widthOf fs i) := by
      rcases Nat.lt_or_gt_of_ne h with hlt | hgt
      · have := offsetOf_mono fs i j hlt; omega
      · have := offsetOf_mono fs j i hgt; omega
    simp [hk, hd]
  · simp [hk]

theorem testBit_writeAll_aux (fs : List BitField) (v : Nat) (k : Nat) (s j : Nat) :
    ((List.range k).foldl (fun t i => writeMember fs t i (readMember fs v i)) s).testBit j =
      if j < offsetOf fs k then v.testBit j else s.testBit j := by
  induction k with
  | zero => simp [offsetOf, totalWidth]
  | succ k ih =>
    rw [List.range_succ, List.foldl_append, List.foldl_cons, List.foldl_nil,
      testBit_writeMember, testBit_readMember, ih, offsetOf_succ]
    by_cases h1 : j < offsetOf fs k
    · have h2 : ¬ (offsetOf fs k ≤ j ∧ j < offsetOf fs k + widthOf fs k) := by omega
      have h3 : j < offsetOf fs k + widthOf fs k := by omega
      simp [h1, h2, h3]
    · by_cases h2 : j < offsetOf fs k + widthOf fs k
      · have h3 : j - offsetOf fs k < widthOf fs k := by omega
        have h4 : offsetOf fs k + (j - offsetOf fs k) = j := by omega
        have h5 : offsetOf fs k ≤ j := by omega
        simp [h1, h2, h3, h4, h5]
      · simp [h1, h2]

theorem writeAll_mod (fs : List BitField) (s v : Nat) :
    writeAll fs s v % 2 ^ totalWidth fs = v % 2 ^ totalWidth fs := by
  apply Nat.eq_of_testBit_eq
  intro j
  rw [Nat.testBit_mod_two_pow, Nat.testBit_mod_two_pow, writeAll, testBit_writeAll_aux,
    offsetOf_length]
  by_cases h : j < totalWidth fs <;> simp [h]


theorem offsetOf_unit (fs : List BitField) (h : ∀ f ∈ fs, f.width = 1) (i : Nat)
    (hi : i ≤ fs.length) : offsetOf fs i = i := by
  induction fs generalizing i with
  | nil => simp at hi; subst hi; rfl
  | cons f fs ih =>
    cases i with
    | zero => rfl
    | succ k =>
      have h1 := ih (fun g hg => h g (List.mem_cons_of_mem _ hg)) k (by simpa using hi)
      have h2 := h f (List.mem_cons_self _ _)
      simp only [offsetOf, List.take_succ_cons, totalWidth_cons] at h1 ⊢
      omega

theorem widthOf_unit (fs : List BitField) (h : ∀ f ∈ fs, f.width = 1) (i : Nat)
    (hi : i < fs.length) : widthOf fs i = 1 := by
  unfold widthOf
  rw [List.get?_eq_get hi]
  exact h _ (List.get_mem fs i hi)

/-! ## Facts read off the header -/

theorem viewName_ne (r : String) : viewName r ≠ r := by
  intro h
  have h1 := congrArg String.length h
  simp [viewName, String.length_append] at h1
  have : "bits".length = 4 := rfl
  omega

theorem views_model :
    bitfieldViews model =
      [⟨"WREGbits", wreg_bits_t⟩, ⟨"STATUSbits", status_bits_t⟩, ⟨"INTCONbits", intcon_bits_t⟩,
       ⟨"PORTAbits", porta_bits_t⟩, ⟨"PORTBbits", portb_bits_t⟩, ⟨"PORTCbits", portc_bits_t⟩,
       ⟨"PORTDbits", portd_bits_t⟩, ⟨"PORTEbits", porte_bits_t⟩, ⟨"TRISAbits", trisa_bits_t⟩,
       ⟨"TRISBbits", trisb_bits_t⟩, ⟨"TRISCbits", trisc_bits_t⟩, ⟨"TRISDbits", trisd_bits_t⟩,
       ⟨"TRISEbits", trise_bits_t⟩, ⟨"LATAbits", lata_bits_t⟩, ⟨"LATBbits", latb_bits_t⟩,
       ⟨"LATCbits", latc_bits_t⟩, ⟨"OPTION_REGbits", option_reg_bits_t⟩,
       ⟨"PIR0bits", pir0_bits_t⟩, ⟨"PIR1bits", pir1_bits_t⟩, ⟨"PIE0bits", pie0_bits_t⟩,
       ⟨"PIE1bits", pie1_bits_t⟩, ⟨"ANSELAbits", ansela_bits_t⟩, ⟨"ANSELBbits", anselb_bits_t⟩,
       ⟨"WPUAbits", wpua_bits_t⟩, ⟨"ADCON0bits", adcon0_bits_t⟩] := by
  rw [model_eq]
  rfl

theorem flats_model :
    flatRegisters model =
      [⟨"WREG", 8⟩, ⟨"STATUS", 8⟩, ⟨"INTCON", 8⟩, ⟨"PORTA", 8⟩, ⟨"PORTB", 8⟩, ⟨"PORTC", 8⟩,
       ⟨"PORTD", 8⟩, ⟨"PORTE", 8⟩, ⟨"TRISA", 8⟩, ⟨"TRISB", 8⟩, ⟨"TRISC", 8⟩, ⟨"TRISD", 8⟩,
       ⟨"TRISE", 8⟩, ⟨"LATA", 8⟩, ⟨"LATB", 8⟩, ⟨"LATC", 8⟩, ⟨"TMR0", 8⟩, ⟨"TMR1", 8⟩,
       ⟨"TMR1L", 8⟩, ⟨"TMR1H", 8⟩, ⟨"TMR2", 8⟩, ⟨"TMR3", 8⟩, ⟨"TMR4", 8⟩, ⟨"TMR5", 8⟩,
       ⟨"TMR6", 8⟩, ⟨"OPTION_REG", 8⟩, ⟨"PIR0", 8⟩, ⟨"PIR1", 8⟩, ⟨"PIE0", 8⟩, ⟨"PIE1", 8⟩,
       ⟨"ANSELA", 8⟩, ⟨"ANSELB", 8⟩, ⟨"WPUA", 8⟩, ⟨"ADCON0", 8⟩, ⟨"ADRESH", 8⟩, ⟨"ADRESL", 8⟩] := by
  rw [model_eq]
  rfl

theorem portb_flat_mem : (⟨"PORTB", 8⟩ : Flat) ∈ flatRegisters model := by
  rw [flats_model]
  simp

theorem portb_view_mem : (⟨"PORTBbits", portb_bits_t⟩ : View) ∈ bitfieldViews model := by
  rw [views_model]
  simp

theorem status_view_mem : (⟨"STATUSbits", status_bits_t⟩ : View) ∈ bitfieldViews model := by
  rw [views_model]
  simp

theorem tmr0_flat_mem : (⟨"TMR0", 8⟩ : Flat) ∈ flatRegisters model := by
  rw [flats_model]
  simp

theorem wreg_view_mem : (⟨"WREGbits", wreg_bits_t⟩ : View) ∈ bitfieldViews model := by
  rw [views_model]
  simp

theorem views_checked :
    (bitfieldViews model).all (fun v =>
      decide (totalWidth v.fields = 8) &&
      (flatRegisters model).any (fun r =>
        decide (viewName r.name = v.name) && decide (r.bits = 8))) = true := by
  rw [model_eq]
  rfl

theorem views_unit_or_wreg :
    (bitfieldViews model).all (fun v =>
      decide (v = ⟨"WREGbits", wreg_bits_t⟩) ||
      (decide (v.name ≠ "WREGbits") && decide (v.fields.length = 8) &&
        v.fields.all (fun f => decide (f.width = 1)))) = true := by
  rw [model_eq]
  rfl

/-- C1: every bit-field view of the model (the 25 listed ones) has member widths
that sum to 8, the width of the flat `uint8_t` register of the same name. -/
theorem C1_view_widths_sum_to_register_width :
    (bitfieldViews model).map (fun v => v.name) =
      ["WREGbits", "STATUSbits", "INTCONbits", "PORTAbits", "PORTBbits", "PORTCbits",
       "PORTDbits", "PORTEbits", "TRISAbits", "TRISBbits", "TRISCbits", "TRISDbits",
       "TRISEbits", "LATAbits", "LATBbits", "LATCbits", "OPTION_REGbits", "PIR0bits",
       "PIR1bits", "PIE0bits", "PIE1bits", "ANSELAbits", "ANSELBbits", "WPUAbits",
       "ADCON0bits"] ∧
    ∀ v ∈ bitfieldViews model, totalWidth v.fields = 8 ∧
      ∃ r ∈ flatRegisters model, viewName r.name = v.name ∧ r.bits = totalWidth v.fields := by
  constructor
  · rw [model_eq]
    rfl
  · intro v hv
    have h := List.all_eq_true.mp views_checked v hv
    simp only [Bool.and_eq_true, decide_eq_true_eq, List.any_eq_true] at h
    obtain ⟨hw, r, hr, hn, hb⟩ := h
    exact ⟨hw, r, hr, hn, by rw [hw, hb]⟩

/-- C1 at `PORTBbits`. -/
theorem C1_view_widths_sum_to_register_width_witness :
    totalWidth portb_bits_t = 8 ∧
      ∃ r ∈ flatRegisters model, viewName r.name = "PORTBbits" ∧
        r.bits = totalWidth portb_bits_t :=
  C1_view_widths_sum_to_register_width.2 ⟨"PORTBbits", portb_bits_t⟩ portb_view_mem

/-! ## Field independence and round trips -/

theorem memberIndex_some (fs : List BitField) (m : String) (i : Nat)
    (h : memberIndex fs m = some i) :
    ∃ hi : i < fs.length, (fs.get ⟨i, hi⟩).name = m := by
  unfold memberIndex at h
  simp only at h
  split at h
  · rename_i hlt
    have hi : i = List.findIdx (fun f => f.name == m) fs := by
      simpa using h.symm
    subst hi
    refine ⟨hlt, ?_⟩
    have := @List.findIdx_getElem _ (fun f => f.name == m) fs hlt
    simpa using this
  · cases h

theorem memberIndex_ne (fs : List BitField) (f g : String) (i j : Nat)
    (hf : memberIndex fs f = some i) (hg : memberIndex fs g = some j) (h : g ≠ f) : i ≠ j := by
  intro hij
  subst hij
  obtain ⟨hi, h1⟩ := memberIndex_some fs f i hf
  obtain ⟨_, h2⟩ := memberIndex_some fs g i hg
  exact h (h2.symm.trans h1)

theorem loadMember_storeMember (σ : Store) (v : View) (i j x : Nat) :
    loadMember (storeMember σ v i x) v j =
      readMember v.fields (writeMember v.fields (σ v.name) i x) j := by
  simp [loadMember, storeMember, Store.set]

theorem writeMember_lt (fs : List BitField) (s i x : Nat) (hs : s < 2 ^ totalWidth fs)
    (hi : i < fs.length) : writeMember fs s i x < 2 ^ totalWidth fs := by
  apply Nat.lt_pow_two_of_testBit
  intro j hj
  rw [testBit_writeMember]
  have h1 := offsetOf_mono fs i fs.length hi
  rw [offsetOf_length] at h1
  have h2 : ¬ (offsetOf fs i ≤ j ∧ j < offsetOf fs i + widthOf fs i) := by omega
  rw [if_neg h2]
  exact Nat.testBit_lt_two_pow (Nat.lt_of_lt_of_le hs (Nat.pow_le_pow_right (by decide) hj))

theorem totalWidth_of_mem (v : View) (hv : v ∈ bitfieldViews model) : totalWidth v.fields = 8 := by
  have h := List.all_eq_true.mp views_checked v hv
  simp only [Bool.and_eq_true, decide_eq_true_eq] at h
  exact h.1

theorem storeAll_aux (v : View) (x : Nat) (is : List Nat) (σ : Store) :
    (is.foldl (fun τ i => storeMember τ v i (readMember v.fields x i)) σ) v.name =
        is.foldl (fun t i => writeMember v.fields t i (readMember v.fields x i)) (σ v.name) ∧
    ∀ o, o ≠ v.name →
      (is.foldl (fun τ i => storeMember τ v i (readMember v.fields x i)) σ) o = σ o := by
  induction is generalizing σ with
  | nil => simp
  | cons i is ih =>
    have h := ih (storeMember σ v i (readMember v.fields x i))
    simp only [List.foldl_cons]
    refine ⟨?_, ?_⟩
    · rw [h.1]
      simp [storeMember, Store.set]
    · intro o ho
      rw [h.2 o ho]
      simp [storeMember, Store.set, ho]

/-- C3: in every bit-field view of the model and every state of it, assigning
`x` to a member `f` and reading `f` back gives `x` reduced to the width of `f`,
and reading any other member `g` gives the value `g` had before; the view keeps
to its 8 bits. -/
theorem C3_field_independence (v : View) (hv : v ∈ bitfieldViews model) (σ : Store)
    (f g : String) (i j x : Nat) (hf : memberIndex v.fields f = some i)
    (hg : memberIndex v.fields g = some j) :
    loadMember (storeMember σ v i x) v i = x % 2 ^ widthOf v.fields i ∧
    (g ≠ f → loadMember (storeMember σ v i x) v j = loadMember σ v j) ∧
    (σ v.name < 2 ^ 8 → (storeMember σ v i x) v.name < 2 ^ 8) := by
  refine ⟨?_, ?_, ?_⟩
  · rw [loadMember_storeMember, readMember_writeMember_same]
  · intro hne
    rw [loadMember_storeMember,
      readMember_writeMember_other _ _ _ _ _ (memberIndex_ne v.fields f g i j hf hg hne)]
    rfl
  · intro hs
    obtain ⟨hi, _⟩ := memberIndex_some v.fields f i hf
    have h8 := totalWidth_of_mem v hv
    have := writeMember_lt v.fields (σ v.name) i x (by rw [h8]; exact hs) hi
    rw [h8] at this
    simpa [storeMember, Store.set] using this

/-- C3 at `PORTBbits`: from the state `0xFF`, `RB3 = 2` reads back as 0 in `RB3`,
leaves `RB5` as it was and keeps the state a byte. -/
theorem C3_field_independence_witness :
    loadMember (storeMember (fun _ => 255) ⟨"PORTBbits", portb_bits_t⟩ 3 2)
        ⟨"PORTBbits", portb_bits_t⟩ 3 = 2 % 2 ^ widthOf portb_bits_t 3 ∧
    loadMember (storeMember (fun _ => 255) ⟨"PORTBbits", portb_bits_t⟩ 3 2)
        ⟨"PORTBbits", portb_bits_t⟩ 5 =
          loadMember (fun _ => 255) ⟨"PORTBbits", portb_bits_t⟩ 5 ∧
    (storeMember (fun _ => 255) ⟨"PORTBbits", portb_bits_t⟩ 3 2) "PORTBbits" < 2 ^ 8 :=
  ⟨(C3_field_independence ⟨"PORTBbits", portb_bits_t⟩ portb_view_mem (fun _ => 255)
      "RB3" "RB5" 3 5 2 rfl rfl).1,
   (C3_field_independence ⟨"PORTBbits", portb_bits_t⟩ portb_view_mem (fun _ => 255)
      "RB3" "RB5" 3 5 2 rfl rfl).2.1 (by decide),
   (C3_field_independence ⟨"PORTBbits", portb_bits_t⟩ portb_view_mem (fun _ => 255)
      "RB3" "RB5" 3 5 2 rfl rfl).2.2 (by decide)⟩

/-- C2 fails as stated: `PORTB` and `PORTBbits` are two objects, so a byte
written to `PORTB` is not seen through `PORTBbits` and members written through
`PORTBbits` do not reach `PORTB`; and the member at position 0 of `WREGbits` is
8 bits wide, so it reads the whole byte and not bit 0. -/
theorem C2_flat_write_not_seen_through_view :
    (⟨"PORTBbits", portb_bits_t⟩ : View) ∈ bitfieldViews model ∧
    (⟨"PORTB", 8⟩ : Flat) ∈ flatRegisters model ∧
    loadMember (storeFlat (fun _ => 0) "PORTB" 255) ⟨"PORTBbits", portb_bits_t⟩ 0 ≠ 255 / 2 ^ 0 % 2 ∧
    loadFlat (storeAll (fun _ => 0) ⟨"PORTBbits", portb_bits_t⟩ 255) "PORTB" ≠ 255 ∧
    (⟨"WREGbits", wreg_bits_t⟩ : View) ∈ bitfieldViews model ∧
    loadMember (Store.set (fun _ => 0) "WREGbits" 255) ⟨"WREGbits", wreg_bits_t⟩ 0
      ≠ 255 / 2 ^ 0 % 2 := by
  refine ⟨portb_view_mem, portb_flat_mem, ?_, ?_, wreg_view_mem, ?_⟩
  · decide
  · decide
  · decide

/-- C2 as the header has it: inside a view the round trip holds. If the storage
of `Rbits` holds the byte `x`, the member at position `i` reads bit `i` of `x`
(the single 8-bit member `W` of `WREGbits` reads `x` itself), and assigning to
every member its bits of `x` leaves `x` in the low 8 bits of the storage of
`Rbits`. The flat register `R` is another object: writing `R` does not change
what `Rbits` reads, and writing the members of `Rbits` does not change `R`. -/
theorem C2_round_trip_within_view (v : View) (hv : v ∈ bitfieldViews model) (σ : Store)
    (x i : Nat) (hx : x < 2 ^ 8) (hi : i < v.fields.length) (r : String)
    (hr : viewName r = v.name) :
    (v.name ≠ "WREGbits" → loadMember (σ.set v.name x) v i = x / 2 ^ i % 2) ∧
    (v.name = "WREGbits" → loadMember (σ.set v.name x) v i = x) ∧
    (storeAll σ v x) v.name % 2 ^ 8 = x ∧
    loadMember (storeFlat σ r x) v i = loadMember σ v i ∧
    loadFlat (storeAll σ v x) r = loadFlat σ r := by
  have hne : r ≠ v.name := fun h => viewName_ne r (hr.trans h.symm)
  have hcase := List.all_eq_true.mp views_unit_or_wreg v hv
  simp only [Bool.or_eq_true, Bool.and_eq_true, decide_eq_true_eq, List.all_eq_true] at hcase
  have hload : loadMember (σ.set v.name x) v i = readMember v.fields x i := by
    simp [loadMember, Store.set]
  refine ⟨?_, ?_, ?_, ?_, ?_⟩
  · intro hn
    rcases hcase with hw | ⟨⟨_, _⟩, hu⟩
    · subst hw; exact absurd rfl hn
    · rw [hload, readMember, offsetOf_unit v.fields hu i (Nat.le_of_lt hi),
        widthOf_unit v.fields hu i hi, Nat.shiftRight_eq_div_pow, Nat.pow_one]
  · intro hn
    rcases hcase with hw | ⟨⟨hn2, _⟩, _⟩
    · subst hw
      have h0 : i = 0 := by
        have : i < 1 := hi
        omega
      subst h0
      rw [hload]
      show (x >>> 0) % 2 ^ 8 = x
      rw [Nat.shiftRight_zero]
      exact Nat.mod_eq_of_lt hx
    · exact absurd hn hn2
  · have h := (storeAll_aux v x (List.range v.fields.length) σ).1
    have h8 := totalWidth_of_mem v hv
    have hm := writeAll_mod v.fields (σ v.name) x
    rw [h8] at hm
    unfold storeAll
    rw [h]
    unfold writeAll at hm
    rw [hm]
    exact Nat.mod_eq_of_lt hx
  · simp [loadMember, storeFlat, Store.set, Ne.symm hne]
  · exact (storeAll_aux v x (List.range v.fields.length) σ).2 r hne

/-- C2 (as amended) at `STATUSbits`, the byte `0x35` and member 2 (`Z`), and at
`WREGbits` with its member `W`. -/
theorem C2_round_trip_within_view_witness :
    loadMember (Store.set (fun _ => 0) "STATUSbits" 53) ⟨"STATUSbits", status_bits_t⟩ 2
      = 53 / 2 ^ 2 % 2 ∧
    loadMember (Store.set (fun _ => 0) "WREGbits" 53) ⟨"WREGbits", wreg_bits_t⟩ 0 = 53 ∧
    (storeAll (fun _ => 0) ⟨"STATUSbits", status_bits_t⟩ 53) "STATUSbits" % 2 ^ 8 = 53 ∧
    loadMember (storeFlat (fun _ => 0) "STATUS" 53) ⟨"STATUSbits", status_bits_t⟩ 2
      = loadMember (fun _ => 0) ⟨"STATUSbits", status_bits_t⟩ 2 ∧
    loadFlat (storeAll (fun _ => 0) ⟨"STATUSbits", status_bits_t⟩ 53) "STATUS"
      = loadFlat (fun _ => 0) "STATUS" :=
  ⟨(C2_round_trip_within_view ⟨"STATUSbits", status_bits_t⟩ status_view_mem
      (fun _ => 0) 53 2 (by decide) (by decide) "STATUS" rfl).1 (by decide),
   (C2_round_trip_within_view ⟨"WREGbits", wreg_bits_t⟩ wreg_view_mem
      (fun _ => 0) 53 0 (by decide) (by decide) "WREG" rfl).2.1 rfl,
   (C2_round_trip_within_view ⟨"STATUSbits", status_bits_t⟩ status_view_mem
      (fun _ => 0) 53 2 (by decide) (by decide) "STATUS" rfl).2.2⟩

/-! ## Activation -/

theorem contributed_eq (cfg : List String) :
    contributed cfg =
      if "PIC_UNIVERSAL_STUBS_H" ∈ cfg then []
      else Line.defineObj "PIC_UNIVERSAL_STUBS_H" ::
        (if "__clang__" ∈ cfg then registerModel else []) := by
  have h : clangBlock.filter (fun l => !l.isPragma) = registerModel := rfl
  unfold contributed
  rw [emitted_eq]
  by_cases hg : "PIC_UNIVERSAL_STUBS_H" ∈ cfg
  · simp [hg]
  · by_cases hc : "__clang__" ∈ cfg
    · simp only [hg, hc, if_true, if_false]
      rw [List.filter_cons, h]
      rfl
    · simp [hg, hc, Line.isPragma]

theorem expandTok_other (defs : List Definition) (k : Nat) (hide : List String) (t : String)
    (h : ∀ d ∈ defs, d.name ≠ t) : expandTok defs k hide t = [t] := by
  cases k with
  | zero => rfl
  | succ k =>
    have hn : defs.find? (fun d => d.name == t) = none := by
      rw [List.find?_eq_none]
      intro d hd
      simpa using h d hd
    unfold expandTok
    split
    · rfl
    · rw [hn]

theorem flatMap_fixed (f : String → List String) (ts : List String)
    (h : ∀ t ∈ ts, f t = [t]) : ts.flatMap f = ts := by
  induction ts with
  | nil => rfl
  | cons t ts ih =>
    rw [List.flatMap_cons, h t (List.mem_cons_self _ _),
      ih (fun u hu => h u (List.mem_cons_of_mem _ hu))]
    rfl

theorem translate_fixed (defs : List Definition) (l : Line)
    (h : ∀ d ∈ defs, d.name ∉ l.tokens) : translate defs l = l.tokens := by
  unfold translate
  split
  · rfl
  · apply flatMap_fixed
    intro t ht
    apply expandTok_other
    intro d hd he
    exact h d hd (he ▸ ht)

theorem guard_not_in_text :
    modelTokens.all (fun t => decide (t ≠ "PIC_UNIVERSAL_STUBS_H")) = true := by
  rfl

theorem not_mem_modelTokens (n : String)
    (h : modelTokens.all (fun t => decide (t ≠ n)) = true) : n ∉ modelTokens := by
  intro hn
  have := List.all_eq_true.mp h n hn
  simp at this

theorem translate_model_fixed (cfg : List Definition)
    (h : ∀ d ∈ cfg, d.name ∉ modelTokens) :
    registerModel.map (translate ({ name := "PIC_UNIVERSAL_STUBS_H", body := [] } :: cfg))
      = registerModel.map Line.tokens := by
  apply List.map_congr_left
  intro l hl
  apply translate_fixed
  intro d hd ht
  have hm : d.name ∈ modelTokens := List.mem_flatMap.mpr ⟨l, hl, ht⟩
  rcases List.mem_cons.mp hd with he | hc
  · subst he
    exact not_mem_modelTokens _ guard_not_in_text hm
  · exact h d hc hm

theorem translated_eq (cfg : List Definition) :
    translated cfg =
      if "PIC_UNIVERSAL_STUBS_H" ∈ definedNames cfg then []
      else ["#", "define", "PIC_UNIVERSAL_STUBS_H"] ::
        (if "__clang__" ∈ definedNames cfg then
          registerModel.map
            (translate ({ name := "PIC_UNIVERSAL_STUBS_H", body := [] } :: cfg))
         else []) := by
  unfold translated
  rw [contributed_eq]
  by_cases hg : "PIC_UNIVERSAL_STUBS_H" ∈ definedNames cfg
  · simp [hg]
  · by_cases hc : "__clang__" ∈ definedNames cfg
    · simp only [hg, hc, if_true, if_false, List.map_cons]
      rfl
    · simp only [hg, hc, if_false, List.map_cons, List.map_nil]
      rfl

/-- C4 fails as stated: two configurations that both leave the guard undefined
and both define `__clang__` get different output when one of them also defines
a name that occurs in the text of the model. With `RB0` defined as `LED` the
first member of `portb_bits_t` is declared as `LED`, and no line declares `RB0`. -/
theorem C4_defined_name_changes_output :
    "PIC_UNIVERSAL_STUBS_H" ∉ definedNames [⟨"__clang__", ["1"]⟩] ∧
    "PIC_UNIVERSAL_STUBS_H" ∉ definedNames [⟨"__clang__", ["1"]⟩, ⟨"RB0", ["LED"]⟩] ∧
    "__clang__" ∈ definedNames [⟨"__clang__", ["1"]⟩] ∧
    "__clang__" ∈ definedNames [⟨"__clang__", ["1"]⟩, ⟨"RB0", ["LED"]⟩] ∧
    (translated [⟨"__clang__", ["1"]⟩]).any (fun ts => ts.contains "RB0") = true ∧
    (translated [⟨"__clang__", ["1"]⟩, ⟨"RB0", ["LED"]⟩]).any (fun ts => ts.contains "RB0")
      = false ∧
    (translated [⟨"__clang__", ["1"]⟩, ⟨"RB0", ["LED"]⟩]).any
      (fun ts => decide (ts.take 8 = ["typedef", "struct", "\x7b", "unsigned", "LED", ":", "1", ";"]))
      = true ∧
    translated [⟨"__clang__", ["1"]⟩] ≠ translated [⟨"__clang__", ["1"]⟩, ⟨"RB0", ["LED"]⟩] := by
  have h1 : (translated [⟨"__clang__", ["1"]⟩]).any (fun ts => ts.contains "RB0") = true := by
    rw [translated_eq]; rfl
  have h2 : (translated [⟨"__clang__", ["1"]⟩, ⟨"RB0", ["LED"]⟩]).any
      (fun ts => ts.contains "RB0") = false := by
    rw [translated_eq]; rfl
  refine ⟨by decide, by decide, by decide, by decide, h1, h2, ?_, ?_⟩
  · rw [translated_eq]; rfl
  · intro h
    rw [h, h2] at h1
    cases h1

/-- C4 as the header has it. On a first inclusion (guard not yet defined) the
header contributes, after the definition of its guard, the full register model
if `__clang__` is defined and nothing if it is not; the text of the model is
the text of the header with the names the configuration defines replaced. The
conditionals test no other name: a configuration that defines no token of the
text of the model gets the model as written, so two such configurations that
agree on `__clang__` get the same output. -/
theorem C4_activation_on_first_inclusion (cfg cfg2 : List Definition)
    (hg : "PIC_UNIVERSAL_STUBS_H" ∉ definedNames cfg)
    (hg2 : "PIC_UNIVERSAL_STUBS_H" ∉ definedNames cfg2) :
    ("__clang__" ∈ definedNames cfg →
      translated cfg = ["#", "define", "PIC_UNIVERSAL_STUBS_H"] ::
        registerModel.map
          (translate ({ name := "PIC_UNIVERSAL_STUBS_H", body := [] } :: cfg))) ∧
    ("__clang__" ∉ definedNames cfg →
      translated cfg = [["#", "define", "PIC_UNIVERSAL_STUBS_H"]]) ∧
    ((∀ d ∈ cfg, d.name ∉ modelTokens) → "__clang__" ∈ definedNames cfg →
      translated cfg = ["#", "define", "PIC_UNIVERSAL_STUBS_H"] ::
        registerModel.map Line.tokens) ∧
    ((∀ d ∈ cfg, d.name ∉ modelTokens) → (∀ d ∈ cfg2, d.name ∉ modelTokens) →
      ("__clang__" ∈ definedNames cfg ↔ "__clang__" ∈ definedNames cfg2) →
      translated cfg = translated cfg2) := by
  refine ⟨?_, ?_, ?_, ?_⟩
  · intro hc
    rw [translated_eq, if_neg hg, if_pos hc]
  · intro hc
    rw [translated_eq, if_neg hg, if_neg hc]
  · intro h hc
    rw [translated_eq, if_neg hg, if_pos hc, translate_model_fixed cfg h]
  · intro h h2 hiff
    rw [translated_eq, translated_eq, if_neg hg, if_neg hg2]
    by_cases hc : "__clang__" ∈ definedNames cfg
    · rw [if_pos hc, if_pos (hiff.mp hc), translate_model_fixed cfg h,
        translate_model_fixed cfg2 h2]
    · rw [if_neg hc, if_neg (fun h3 => hc (hiff.mpr h3))]

/-- C4 (as amended) at the configuration that defines `__clang__` alone, at the
empty configuration, and at a configuration that also selects a device. -/
theorem C4_activation_on_first_inclusion_witness :
    translated [⟨"__clang__", ["1"]⟩] = ["#", "define", "PIC_UNIVERSAL_STUBS_H"] ::
      registerModel.map
        (translate [{ name := "PIC_UNIVERSAL_STUBS_H", body := [] }, ⟨"__clang__", ["1"]⟩]) ∧
    translated [] = [["#", "define", "PIC_UNIVERSAL_STUBS_H"]] ∧
    translated [⟨"__clang__", ["1"]⟩] = ["#", "define", "PIC_UNIVERSAL_STUBS_H"] ::
      registerModel.map Line.tokens ∧
    translated [⟨"__clang__", ["1"]⟩] = translated [⟨"_16F876", ["1"]⟩, ⟨"__clang__", ["1"]⟩] :=
  ⟨(C4_activation_on_first_inclusion [⟨"__clang__", ["1"]⟩] [] (by decide) (by decide)).1
      (by decide),
   (C4_activation_on_first_inclusion [] [] (by decide) (by decide)).2.1 (by decide),
   (C4_activation_on_first_inclusion [⟨"__clang__", ["1"]⟩] [] (by decide) (by decide)).2.2.1
      (fun d hd => by
        rw [List.mem_singleton.mp hd]
        exact not_mem_modelTokens _ rfl)
      (by decide),
   (C4_activation_on_first_inclusion [⟨"__clang__", ["1"]⟩]
      [⟨"_16F876", ["1"]⟩, ⟨"__clang__", ["1"]⟩] (by decide) (by decide)).2.2.2
      (fun d hd => by
        rw [List.mem_singleton.mp hd]
        exact not_mem_modelTokens _ rfl)
      (fun d hd => by
        rcases List.mem_cons.mp hd with h | h
        · rw [h]
          exact not_mem_modelTokens _ rfl
        · rw [List.mem_singleton.mp h]
          exact not_mem_modelTokens _ rfl)
      (by decide)⟩

/-! ## Flat registers and their views -/

theorem flats_checked :
    (flatRegisters model).all (fun r =>
      decide (r.bits = 8) &&
      (if flatOnly.any (fun n => decide (n = r.name)) then
        (suppliedNames model).all (fun n => decide (n ≠ viewName r.name))
       else (bitfieldViews model).any (fun v => decide (v.name = viewName r.name)))) = true := by
  rw [model_eq]
  rfl

theorem flatOnly_checked :
    flatOnly.all (fun n => (flatRegisters model).any (fun r => decide (r = ⟨n, 8⟩))) = true := by
  rw [model_eq]
  rfl

/-- C5 fails as stated: `TMR0` is declared as a flat register and the header
declares nothing called `TMR0bits`. -/
theorem C5_timer_register_has_no_view :
    (⟨"TMR0", 8⟩ : Flat) ∈ flatRegisters model ∧
    viewName "TMR0" ∉ (bitfieldViews model).map (fun v => v.name) ∧
    viewName "TMR0" ∉ suppliedNames model := by
  have hm := tmr0_flat_mem
  have h := List.all_eq_true.mp flats_checked ⟨"TMR0", 8⟩ hm
  have hf : flatOnly.any (fun n => decide (n = "TMR0")) = true := rfl
  simp only [hf, if_true, Bool.and_eq_true, List.all_eq_true, decide_eq_true_eq] at h
  refine ⟨hm, ?_, ?_⟩
  · rw [views_model]
    decide
  · intro hin
    exact h.2 _ hin rfl

/-- C5 as the header has it: every bit-field view `Xbits` has a flat `uint8_t`
register `X`; every flat register is 8 bits wide and has a view of its name
followed by `bits`, except the eleven registers of `flatOnly` (the timers
`TMR0`, `TMR1`, `TMR1L`, `TMR1H`, `TMR2` to `TMR6` and the ADC results `ADRESH`,
`ADRESL`), which are declared flat only: for them the header introduces no
name ending in `bits`. -/
theorem C5_views_and_flat_registers :
    (∀ v ∈ bitfieldViews model, ∃ r ∈ flatRegisters model, viewName r.name = v.name) ∧
    (∀ r ∈ flatRegisters model, r.bits = 8 ∧
      (r.name ∉ flatOnly → ∃ v ∈ bitfieldViews model, v.name = viewName r.name) ∧
      (r.name ∈ flatOnly → viewName r.name ∉ suppliedNames model)) ∧
    (∀ n ∈ flatOnly, (⟨n, 8⟩ : Flat) ∈ flatRegisters model) := by
  refine ⟨?_, ?_, ?_⟩
  · intro v hv
    have h := List.all_eq_true.mp views_checked v hv
    simp only [Bool.and_eq_true, decide_eq_true_eq, List.any_eq_true] at h
    obtain ⟨_, r, hr, hn, _⟩ := h
    exact ⟨r, hr, hn⟩
  · intro r hr
    have h := List.all_eq_true.mp flats_checked r hr
    simp only [Bool.and_eq_true, decide_eq_true_eq] at h
    refine ⟨h.1, ?_, ?_⟩
    · intro hn
      have hf : flatOnly.any (fun n => decide (n = r.name)) = false := by
        rw [Bool.eq_false_iff]
        intro hb
        rw [List.any_eq_true] at hb
        obtain ⟨n, hn1, hn2⟩ := hb
        exact hn (of_decide_eq_true hn2 ▸ hn1)
      have h2 := h.2
      simp only [hf] at h2
      simpa using h2
    · intro hn
      have hf : flatOnly.any (fun n => decide (n = r.name)) = true := by
        simpa using hn
      have h2 := h.2
      simp only [hf, if_true, List.all_eq_true, decide_eq_true_eq] at h2
      intro hin
      exact h2 _ hin rfl
  · intro n hn
    have h := List.all_eq_true.mp flatOnly_checked n hn
    simp only [List.any_eq_true, decide_eq_true_eq] at h
    obtain ⟨r, hr, he⟩ := h
    exact he ▸ hr

/-- C5 (as amended) at `PORTBbits`, at `PORTB`, which has a view, and at `TMR0`,
which is flat only. -/
theorem C5_views_and_flat_registers_witness :
    (∃ r ∈ flatRegisters model, viewName r.name = "PORTBbits") ∧
    (∃ v ∈ bitfieldViews model, v.name = viewName "PORTB") ∧
    viewName "TMR0" ∉ suppliedNames model ∧
    (⟨"ADRESH", 8⟩ : Flat) ∈ flatRegisters model :=
  ⟨C5_views_and_flat_registers.1 ⟨"PORTBbits", portb_bits_t⟩ portb_view_mem,
   (C5_views_and_flat_registers.2.1 ⟨"PORTB", 8⟩ portb_flat_mem).2.1 (by decide),
   (C5_views_and_flat_registers.2.1 ⟨"TMR0", 8⟩ tmr0_flat_mem).2.2 (by decide),
   C5_views_and_flat_registers.2.2 "ADRESH" (by decide)⟩

/-! ## Bit positions and member names -/

/-- C6: the members of `STATUSbits`, `INTCONbits` and `OPTION_REGbits` stand in
the listed order, first member at bit 0, so that setting only the member at
position `i` of a cleared register gives the byte `2 ^ i`; setting only `Z`
gives `0x04`, only `GIE` gives `0x80`, only `nRBPU` gives `0x80`. -/
theorem C6_core_register_bit_positions :
    (⟨"STATUSbits", status_bits_t⟩ : View) ∈ bitfieldViews model ∧
    (⟨"INTCONbits", intcon_bits_t⟩ : View) ∈ bitfieldViews model ∧
    (⟨"OPTION_REGbits", option_reg_bits_t⟩ : View) ∈ bitfieldViews model ∧
    status_bits_t.map (fun f => f.name) = ["C", "DC", "Z", "nPD", "nTO", "RP0", "RP1", "IRP"] ∧
    intcon_bits_t.map (fun f => f.name) =
      ["RBIF", "INTF", "T0IF", "RBIE", "INTE", "T0IE", "PEIE", "GIE"] ∧
    option_reg_bits_t.map (fun f => f.name) =
      ["PS0", "PS1", "PS2", "PSA", "T0SE", "T0CS", "INTEDG", "nRBPU"] ∧
    (∀ i : Fin 8, writeMember status_bits_t 0 i.val 1 = 2 ^ i.val ∧
      writeMember intcon_bits_t 0 i.val 1 = 2 ^ i.val ∧
      writeMember option_reg_bits_t 0 i.val 1 = 2 ^ i.val) ∧
    (memberIndex status_bits_t "Z" = some 2 ∧ writeMember status_bits_t 0 2 1 = 0x04) ∧
    (memberIndex intcon_bits_t "GIE" = some 7 ∧ writeMember intcon_bits_t 0 7 1 = 0x80) ∧
    (memberIndex option_reg_bits_t "nRBPU" = some 7 ∧
      writeMember option_reg_bits_t 0 7 1 = 0x80) := by
  refine ⟨status_view_mem, ?_, ?_, rfl, rfl, rfl, ?_, ⟨rfl, rfl⟩, ⟨rfl, rfl⟩, ⟨rfl, rfl⟩⟩
  · rw [views_model]; simp
  · rw [views_model]; simp
  · intro i
    fin_cases i <;> exact ⟨rfl, rfl, rfl⟩

theorem triads_checked :
    (flatRegisters model).all (fun r =>
      match bitGroup r.name with
      | none => true
      | some p => (bitfieldViews model).any (fun v =>
          decide (v.name = viewName r.name) &&
          decide (v.fields.map (fun f => f.name) = conventionNames p))) = true := by
  rw [model_eq]
  rfl

/-- C7: the registers with a bit-group are the PORT, TRIS and LAT registers the
header declares (`PORTA` to `PORTE`, `TRISA` to `TRISE`, `LATA` to `LATC`); the
view of each has exactly eight members, and the member at position `n` is named
by the bit-group followed by the digit `n` (`RB3` is at bit 3 of `PORTBbits`,
`TRISB0` at bit 0 of `TRISBbits`, `LATC7` at bit 7 of `LATCbits`). -/
theorem C7_triad_member_names :
    ((flatRegisters model).filter (fun r => (bitGroup r.name).isSome)).map (fun r => r.name) =
      ["PORTA", "PORTB", "PORTC", "PORTD", "PORTE", "TRISA", "TRISB", "TRISC", "TRISD",
       "TRISE", "LATA", "LATB", "LATC"] ∧
    (∀ r ∈ flatRegisters model, ∀ p, bitGroup r.name = some p →
      ∃ v ∈ bitfieldViews model, v.name = viewName r.name ∧
        v.fields.map (fun f => f.name) = conventionNames p ∧ v.fields.length = 8) ∧
    bitGroup "PORTB" = some "RB" ∧ memberIndex portb_bits_t "RB3" = some 3 ∧
    bitGroup "TRISB" = some "TRISB" ∧ memberIndex trisb_bits_t "TRISB0" = some 0 ∧
    bitGroup "LATC" = some "LATC" ∧ memberIndex latc_bits_t "LATC7" = some 7 := by
  refine ⟨?_, ?_, rfl, rfl, rfl, rfl, rfl, rfl⟩
  · rw [model_eq]; rfl
  · intro r hr p hp
    have h := List.all_eq_true.mp triads_checked r hr
    simp only [hp, List.any_eq_true, Bool.and_eq_true, decide_eq_true_eq] at h
    obtain ⟨v, hv, hn, hf⟩ := h
    refine ⟨v, hv, hn, hf, ?_⟩
    have := congrArg List.length hf
    simpa [conventionNames] using this

/-- C7 at `PORTB`, whose bit-group is `RB`. -/
theorem C7_triad_member_names_witness :
    ∃ v ∈ bitfieldViews model, v.name = viewName "PORTB" ∧
      v.fields.map (fun f => f.name) = conventionNames "RB" ∧ v.fields.length = 8 :=
  C7_triad_member_names.2.1 ⟨"PORTB", 8⟩ portb_flat_mem "RB" rfl

/-! ## The blink example -/

theorem emitted_active (cfg : List String) (hg : "PIC_UNIVERSAL_STUBS_H" ∉ cfg)
    (hc : "__clang__" ∈ cfg) : emitted cfg = model := by
  rw [model_eq, emitted_eq]
  simp [hg, hc]

theorem suppliedNames_inactive (cfg : List String) (hc : "__clang__" ∉ cfg) (n : String)
    (hn : n ∈ suppliedNames (emitted cfg)) : n = "PIC_UNIVERSAL_STUBS_H" := by
  rw [emitted_eq] at hn
  by_cases hg : "PIC_UNIVERSAL_STUBS_H" ∈ cfg
  · simp [hg, suppliedNames] at hn
  · simpa [hg, hc, suppliedNames, Line.names] using hn

/-- C8: on a first inclusion with `__clang__` defined the header emits the model,
in which everything `main` of the blink example uses resolves: `TRISBbits` has
the member `TRISB0` and `PORTBbits` the member `RB0`, both 1 bit wide, so the
values 0 and 1 are stored as they are, and `__delay_ms` is a definition with
exactly one parameter. Without `__clang__` the header supplies none of the names
`main` uses. -/
theorem C8_blink_symbols_resolve (cfg : List String) (σ : Store) :
    ("PIC_UNIVERSAL_STUBS_H" ∉ cfg → "__clang__" ∈ cfg →
      emitted cfg = model ∧ main.all (resolves (emitted cfg)) = true) ∧
    ((⟨"TRISBbits", trisb_bits_t⟩ : View) ∈ bitfieldViews model ∧
      memberIndex trisb_bits_t "TRISB0" = some 0 ∧ widthOf trisb_bits_t 0 = 1 ∧
      loadMember (storeMember σ ⟨"TRISBbits", trisb_bits_t⟩ 0 0) ⟨"TRISBbits", trisb_bits_t⟩ 0
        = 0) ∧
    ((⟨"PORTBbits", portb_bits_t⟩ : View) ∈ bitfieldViews model ∧
      memberIndex portb_bits_t "RB0" = some 0 ∧ widthOf portb_bits_t 0 = 1 ∧
      loadMember (storeMember σ ⟨"PORTBbits", portb_bits_t⟩ 0 1) ⟨"PORTBbits", portb_bits_t⟩ 0
        = 1 ∧
      loadMember (storeMember σ ⟨"PORTBbits", portb_bits_t⟩ 0 0) ⟨"PORTBbits", portb_bits_t⟩ 0
        = 0) ∧
    lookupFn model "__delay_ms" = some (["x"], Stmt.doWhile Stmt.empty (Expr.num 0)) ∧
    ("__clang__" ∉ cfg → ∀ u ∈ main, ∀ n ∈ u.names, n ∉ suppliedNames (emitted cfg)) := by
  have hres : main.all (resolves model) = true := by
    rw [model_eq]; rfl
  refine ⟨?_, ⟨?_, rfl, rfl, ?_⟩, ⟨portb_view_mem, rfl, rfl, ?_, ?_⟩, ?_, ?_⟩
  · intro hg hc
    rw [emitted_active cfg hg hc]
    exact ⟨rfl, hres⟩
  · rw [views_model]; simp
  · rw [loadMember_storeMember, readMember_writeMember_same]; rfl
  · rw [loadMember_storeMember, readMember_writeMember_same]; rfl
  · rw [loadMember_storeMember, readMember_writeMember_same]; rfl
  · rw [model_eq]; rfl
  · intro hc u hu n hn hin
    have h := suppliedNames_inactive cfg hc n hin
    subst h
    revert hn
    revert u
    decide

/-- C8 at the configuration where only `__clang__` is predefined, and at the
empty configuration for the name `RB0` of line 38. -/
theorem C8_blink_symbols_resolve_witness :
    (emitted ["__clang__"] = model ∧ main.all (resolves (emitted ["__clang__"])) = true) ∧
    "RB0" ∉ suppliedNames (emitted []) :=
  ⟨(C8_blink_symbols_resolve ["__clang__"] (fun _ => 0)).1 (by simp) (by simp),
   (C8_blink_symbols_resolve [] (fun _ => 0)).2.2.2.2 (by simp)
     (Use.memberAssign "PORTBbits" "RB0" 1) (by decide) "RB0" (by decide)⟩

/-! ## Diagnostic suppression -/

theorem diagPragmas_emitted (cfg : List String) :
    diagPragmas (emitted cfg) =
      if "PIC_UNIVERSAL_STUBS_H" ∉ cfg ∧ "__clang__" ∈ cfg then
        DiagPragma.push :: suppressed.map DiagPragma.ignored ++ [DiagPragma.pop]
      else [] := by
  have h : diagPragmas clangBlock =
      DiagPragma.push :: suppressed.map DiagPragma.ignored ++ [DiagPragma.pop] := rfl
  rw [emitted_eq]
  by_cases hg : "PIC_UNIVERSAL_STUBS_H" ∈ cfg
  · simp [hg, diagPragmas]
  · by_cases hc : "__clang__" ∈ cfg
    · simp only [hg, hc, if_true, if_false, not_false_eq_true, and_self]
      rw [← h]
      rfl
    · simp [hg, hc, diagPragmas]

theorem runDiag_block (d : DiagState) :
    runDiag d (DiagPragma.push :: suppressed.map DiagPragma.ignored) =
      { current := fun g => if g ∈ suppressed then Severity.ignored else d.current g,
        saved := d.current :: d.saved } := by
  simp only [runDiag, suppressed, List.map, List.foldl, diagStep]
  congr 1
  funext g
  simp only [List.mem_cons, List.mem_singleton, List.not_mem_nil, or_false]
  by_cases h1 : g = "-Wunknown-pragmas"
  · subst h1; simp
  · by_cases h2 : g = "-Wunused-variable"
    · subst h2; simp
    · by_cases h3 : g = "-Wimplicit-function-declaration"
      · subst h3; simp
      · by_cases h4 : g = "-Wignored-attributes"
        · subst h4; simp
        · simp [h1, h2, h3, h4]

/-- C9: with the diagnostic state as a stack, for every configuration and every
state on entry, running the pragmas the header emits gives back the state on
entry, and the header emits as many `push` as `pop` (one of each when the block
is active, none otherwise). Inside the active block, after the `push` and the
four `ignored` lines, the state on entry is saved on the stack, the four
categories unknown-pragmas, unused-variable, implicit-function-declaration and
ignored-attributes are ignored and every other category is mapped as on entry. -/
theorem C9_diagnostics_scoped (cfg : List String) (d : DiagState) :
    runDiag d (diagPragmas (emitted cfg)) = d ∧
    (diagPragmas (emitted cfg)).count DiagPragma.push =
      (diagPragmas (emitted cfg)).count DiagPragma.pop ∧
    diagPragmas (emitted cfg) =
      (if "PIC_UNIVERSAL_STUBS_H" ∉ cfg ∧ "__clang__" ∈ cfg then
        DiagPragma.push :: suppressed.map DiagPragma.ignored ++ [DiagPragma.pop]
      else []) ∧
    (runDiag d (DiagPragma.push :: suppressed.map DiagPragma.ignored)).saved
      = d.current :: d.saved ∧
    (∀ g, (runDiag d (DiagPragma.push :: suppressed.map DiagPragma.ignored)).current g =
      if g ∈ suppressed then Severity.ignored else d.current g) ∧
    diagStep (runDiag d (DiagPragma.push :: suppressed.map DiagPragma.ignored)) DiagPragma.pop
      = d := by
  have hpop : diagStep (runDiag d (DiagPragma.push :: suppressed.map DiagPragma.ignored))
      DiagPragma.pop = d := by
    rw [runDiag_block]
    rfl
  refine ⟨?_, ?_, diagPragmas_emitted cfg, ?_, ?_, hpop⟩
  · rw [diagPragmas_emitted]
    split
    · show runDiag d ((DiagPragma.push :: suppressed.map DiagPragma.ignored) ++
        [DiagPragma.pop]) = d
      rw [runDiag, List.foldl_append]
      exact hpop
    · rfl
  · rw [diagPragmas_emitted]
    split
    · rfl
    · rfl
  · rw [runDiag_block]
  · intro g
    rw [runDiag_block]

/-! ## The delay definitions -/

/-- C10: the model has exactly two function-like definitions, `__delay_ms` and
`__delay_us`, each with the one parameter `x`; an invocation expands only when
given exactly one argument, to the same statement `do { } while(0)` for both
and for every argument, and the body does not mention the parameter, so the
argument is dropped and never evaluated; executing the expansion ends (any bound of at least 2 steps is enough) in the
state it started from. -/
theorem C10_delay_is_noop (arg : Expr) (args : List Expr) (σ : Store) (n : Nat) :
    functionLike model = [("__delay_ms", ["x"]), ("__delay_us", ["x"])] ∧
    lookupFn model "__delay_ms" = some (["x"], Stmt.doWhile Stmt.empty (Expr.num 0)) ∧
    lookupFn model "__delay_us" = some (["x"], Stmt.doWhile Stmt.empty (Expr.num 0)) ∧
    expandCall model "__delay_ms" [arg] = some (Stmt.doWhile Stmt.empty (Expr.num 0)) ∧
    expandCall model "__delay_us" [arg] = expandCall model "__delay_ms" [arg] ∧
    (expandCall model "__delay_ms" args).isSome = decide (args.length = 1) ∧
    (expandCall model "__delay_us" args).isSome = decide (args.length = 1) ∧
    (expandCall model "__delay_ms" [arg]).bind (fun s => Stmt.exec (n + 2) s σ) = some σ ∧
    (expandCall model "__delay_us" [arg]).bind (fun s => Stmt.exec (n + 2) s σ) = some σ ∧
    (lookupFn model "__delay_ms").map (fun pb => pb.2.mentions "x") = some false ∧
    (lookupFn model "__delay_us").map (fun pb => pb.2.mentions "x") = some false := by
  have hms : lookupFn model "__delay_ms" =
      some (["x"], Stmt.doWhile Stmt.empty (Expr.num 0)) := by
    rw [model_eq]; rfl
  have hus : lookupFn model "__delay_us" =
      some (["x"], Stmt.doWhile Stmt.empty (Expr.num 0)) := by
    rw [model_eq]; rfl
  have ems : expandCall model "__delay_ms" [arg] =
      some (Stmt.doWhile Stmt.empty (Expr.num 0)) := by
    simp [expandCall, hms, Stmt.subst, Expr.subst]
  have eus : expandCall model "__delay_us" [arg] =
      some (Stmt.doWhile Stmt.empty (Expr.num 0)) := by
    simp [expandCall, hus, Stmt.subst, Expr.subst]
  have hexec : Stmt.exec (n + 2) (Stmt.doWhile Stmt.empty (Expr.num 0)) σ = some σ := by
    simp [Stmt.exec, Expr.eval]
  refine ⟨?_, hms, hus, ems, ?_, ?_, ?_, ?_, ?_, by rw [hms]; rfl, by rw [hus]; rfl⟩
  · rw [model_eq]; rfl
  · rw [ems, eus]
  · simp only [expandCall, hms]
    by_cases h : args.length = 1 <;> simp [h, eq_comm]
  · simp only [expandCall, hus]
    by_cases h : args.length = 1 <;> simp [h, eq_comm]
  · rw [ems]; exact hexec
  · rw [eus]; exact hexec

end PicStubs
